import Mathlib

/-!
Shallow embedding of the ArrestWatch Florida scraper
(`src/scrapers/floridaArrests.js`, function `runScraper`).

The browser-side DOM is modelled as an abstract document capability: each
`div` container carries its visible text, the `src` of its descendant `img`
elements (document order), the `href` of its descendant `a` elements, the
inner texts of its `.title, h4, strong` descendants, and of its
`li, .charge` descendants.  JavaScript regexes used by the page-evaluate
extractor are implemented directly over character lists (ASCII whitespace);
JS string `length` coincides with character count on the inputs we model.
JS falsy-or (`x || y`) over strings/numbers/options is modelled explicitly.
-/

namespace ArrestScraper

/-- JS `hay.includes(needle)`: `needle` is a prefix of `hay`. -/
def listPref : List Char → List Char → Bool
  | [], _ => true
  | _ :: _, [] => false
  | c :: cs, d :: ds => c == d && listPref cs ds

/-- Substring occurrence of `needle` anywhere in `hay`. -/
def listSub (needle : List Char) : List Char → Bool
  | [] => listPref needle []
  | d :: ds => listPref needle (d :: ds) || listSub needle ds

/-- JS `hay.includes(needle)` on strings. -/
def strHas (hay needle : String) : Bool := listSub needle.data hay.data

/-- JS regex `\s` (ASCII part). -/
def jsSpace (c : Char) : Bool :=
  c == ' ' || c == '\t' || c == '\n' || c == '\r' || c == '\x0b' || c == '\x0c'

/-- Four consecutive digits somewhere in the text: JS `text.match(/\d{4}/)`. -/
def digitRun4 : List Char → Bool
  | c1 :: c2 :: c3 :: c4 :: rest =>
      (c1.isDigit && c2.isDigit && c3.isDigit && c4.isDigit)
        || digitRun4 (c2 :: c3 :: c4 :: rest)
  | _ => false

def hasFourDigitRun (s : String) : Bool := digitRun4 s.data

/-- Character class `[A-Z\s]` of the leading-name regex. -/
def upperOrSpace (c : Char) : Bool := ('A' ≤ c && c ≤ 'Z') || jsSpace c

/-- JS `text.match(/^([A-Z\s]+)/)?.[1]`: longest nonempty leading run. -/
def leadingUpperRun (s : String) : Option String :=
  let run := s.data.takeWhile upperOrSpace
  if run.isEmpty then none else some (String.mk run)

/-- Case-insensitive literal prefix test (needle given lowercase). -/
def lowerEqPref : List Char → List Char → Bool
  | [], _ => true
  | _ :: _, [] => false
  | c :: cs, d :: ds => d.toLower == c && lowerEqPref cs ds

/-- Leftmost case-insensitive occurrence of `needle`; returns the suffix
after the occurrence. -/
def findCI (needle : List Char) : List Char → Option (List Char)
  | [] => if lowerEqPref needle [] then some [] else none
  | d :: ds =>
      if lowerEqPref needle (d :: ds) then some (List.drop needle.length (d :: ds))
      else findCI needle ds

/-- JS `text.match(/Arrested:?\s*(.*)/i)?.[1]`: after the leftmost
case-insensitive `Arrested`, drop an optional colon and whitespace, then
capture to end of line (`.` excludes line terminators). -/
def matchArrested (s : String) : Option String :=
  match findCI "arrested".data s.data with
  | none => none
  | some rest =>
      let rest1 := match rest with
        | ':' :: t => t
        | t => t
      let rest2 := rest1.dropWhile jsSpace
      some (String.mk (rest2.takeWhile (fun c => !(c == '\n' || c == '\r'))))

/-- One regex step `\d{1,2}\/`: one or two digits (greedy) then a slash. -/
def matchD12Slash : List Char → Option (List Char × List Char)
  | a :: b :: c :: rest =>
      if a.isDigit && b.isDigit && c == '/' then some ([a, b, c], rest)
      else if a.isDigit && b == '/' then some ([a, b], c :: rest)
      else none
  | a :: b :: rest =>
      if a.isDigit && b == '/' then some ([a, b], rest) else none
  | _ => none

/-- Regex step `\d{4}`: exactly four digits. -/
def match4Dig : List Char → Option (List Char × List Char)
  | a :: b :: c :: d :: rest =>
      if a.isDigit && b.isDigit && c.isDigit && d.isDigit then
        some ([a, b, c, d], rest)
      else none
  | _ => none

/-- Attempt `\d{1,2}\/\d{1,2}\/\d{4}` at the head of the list. -/
def tryDateAt (l : List Char) : Option (List Char) := do
  let (m1, r1) ← matchD12Slash l
  let (m2, r2) ← matchD12Slash r1
  let (m3, _) ← match4Dig r2
  pure (m1 ++ m2 ++ m3)

/-- Leftmost match of the date pattern. -/
def findDate : List Char → Option (List Char)
  | [] => none
  | c :: cs =>
      match tryDateAt (c :: cs) with
      | some m => some m
      | none => findDate cs

/-- JS `text.match(/\d{1,2}\/\d{1,2}\/\d{4}/)?.[0]`. -/
def matchDate (s : String) : Option String := (findDate s.data).map String.mk

/-- Attempt `Bond:?\s*(\$[\d,]+)` (case-insensitive) at the head. -/
def tryBondAt (l : List Char) : Option (List Char) :=
  if lowerEqPref "bond".data l then
    let r0 := List.drop 4 l
    let r1 := match r0 with
      | ':' :: t => t
      | t => t
    let r2 := r1.dropWhile jsSpace
    match r2 with
    | '$' :: t =>
        let ds := t.takeWhile (fun c => c.isDigit || c == ',')
        if ds.isEmpty then none else some ('$' :: ds)
    | _ => none
  else none

/-- Leftmost bond match over all suffixes. -/
def findBond : List Char → Option (List Char)
  | [] => none
  | c :: cs =>
      match tryBondAt (c :: cs) with
      | some m => some m
      | none => findBond cs

/-- JS `text.match(/Bond:?\s*(\$[\d,]+)/i)?.[1]`. -/
def matchBond (s : String) : Option String := (findBond s.data).map String.mk

/-- JS `s.trim()`: strip whitespace from both ends. -/
def jsTrim (s : String) : String :=
  String.mk (((s.data.dropWhile jsSpace).reverse.dropWhile jsSpace).reverse)

/-- JS `a || b` where `a : string | undefined` and the result must be a
string: an absent or empty string falls through to `b`. -/
def jsOr (a : Option String) (b : String) : String :=
  match a with
  | some s => if s = "" then b else s
  | none => b

/-- JS `a || b || ''` over two optional string matches. -/
def jsOr2 (a b : Option String) : String :=
  match a with
  | some s => if s = "" then jsOr b "" else s
  | none => jsOr b ""

/-! ## DOM model and extraction -/

/-- An `img` element (`src` reflects the attribute; empty when absent). -/
structure Img where
  src : String
  deriving DecidableEq, Repr

/-- An `a` element. -/
structure Link where
  href : String
  deriving DecidableEq, Repr

/-- A `div` container as seen by the page-evaluate extractor. -/
structure Div where
  innerText : String
  imgs : List Img
  links : List Link
  titleNodes : List String
  listItems : List String
  deriving DecidableEq, Repr

/-- A record as pushed by the page-evaluate extractor (`scraped_at`, a wall
clock read, is omitted from the model). -/
structure CandidateRecord where
  county_id : Nat
  person_name : String
  booking_datetime_text : String
  charges_preview : List String
  image_url : String
  detail_url : Option String
  bond_text : Option String
  deriving DecidableEq, Repr

/-- The per-`div` body of the page-evaluate loop: skip when no `img`
descendant, no 4-digit run, or text longer than 500; otherwise build the
candidate record field by field as the source does. -/
def extractDiv (county : Nat) (d : Div) : Option CandidateRecord :=
  match d.imgs.head? with
  | none => none
  | some img =>
      if !hasFourDigitRun d.innerText then none
      else if d.innerText.length > 500 then none
      else
        let text := d.innerText
        let nameMatch := leadingUpperRun text
        let name := jsOr (d.titleNodes.head?) (nameMatch.getD "Unknown")
        let timestampRaw := jsOr2 (matchArrested text) (matchDate text)
        some
          { county_id := county
            person_name := jsTrim name
            booking_datetime_text := jsTrim timestampRaw
            charges_preview := d.listItems
            image_url := img.src
            detail_url := (d.links.head?).map Link.href
            bond_text := matchBond text }

/-- Dedup key: `r.detail_url || r.person_name`. -/
def dedupKey (r : CandidateRecord) : String :=
  match r.detail_url with
  | some u => if u = "" then r.person_name else u
  | none => r.person_name

/-- The seen-set loop of the in-page deduplicator. -/
def dedupAux (seen : List String) : List CandidateRecord → List CandidateRecord
  | [] => []
  | r :: rs =>
      if dedupKey r ∈ seen then dedupAux seen rs
      else r :: dedupAux (dedupKey r :: seen) rs

/-- The in-page deduplicator (`unique` / `seen` loop). -/
def dedup (rs : List CandidateRecord) : List CandidateRecord := dedupAux [] rs

/-- The whole page-evaluate pass: scan every `div`, extract, deduplicate. -/
def extractPage (county : Nat) (divs : List Div) : List CandidateRecord :=
  dedup (divs.filterMap (extractDiv county))

/-! ## Block detection, listing handler, pagination -/

/-- The post-remediation Cloudflare check on a listing page:
`title.includes('Just a moment') || title.includes('Attention Required')
 || content.includes('challenge-platform')`. -/
def isBlocked (title content : String) : Bool :=
  strHas title "Just a moment" || strHas title "Attention Required"
    || strHas content "challenge-platform"

/-- One entry of the legacy `possibleCards` `$$eval` (already filtered to
`valid` ones: an `img` plus text containing `Arrested`). -/
structure Card where
  html : String
  text : String
  imgSrc : String
  href : Option String
  deriving DecidableEq, Repr

/-- `parseCard`: placeholder in the source, returns `null` on every input. -/
def parseCard (_cardData : Card) (_countyId : Nat) : Option CandidateRecord :=
  none

/-- The `records` list built by the `possibleCards` loop: push `parseCard`
results when non-null. -/
def legacyRecords (cards : List Card) (county : Nat) : List CandidateRecord :=
  cards.filterMap (fun c => parseCard c county)

/-- The observable state of one rendered listing page, after the
best-effort remediation loop: final title and content, the `div` list the
extractor scans, the class-based card count (`.profile-card, .search-result,
.tile`), the legacy `possibleCards`, and whether the debug-artifact store
write would fail. -/
structure PageInput where
  title : String
  content : String
  divs : List Div
  arrestCardCount : Nat
  cards : List Card
  artifactWriteFails : Bool
  deriving DecidableEq, Repr

/-- Continuation predicate of the pagination logic:
`extractedCount > 0 && (!pageEnd || current < pageEnd)`. -/
def shouldEnqueue (pageEnd : Option Nat) (extractedCount current : Nat) : Bool :=
  decide (0 < extractedCount)
    && (match pageEnd with
        | none => true
        | some e => decide (current < e))

/-- Everything the listing branch of `requestHandler` does that is visible
outside the handler. `error` is the thrown message (`none` on normal
return); `artifactKeys` the key-value-store keys actually written. -/
structure HandlerOutcome where
  error : Option String
  sessionRetired : Bool
  pushed : List CandidateRecord
  artifactKeys : List String
  enqueuedPage : Option Nat
  enqueuedUrl : Option String
  deriving DecidableEq, Repr

/-- The listing URL template used for the next-page request. -/
def listingUrl (county page results : Nat) : String :=
  s!"https://florida.arrests.org/index.php?county={county}&page={page}&results={results}"

/-- The listing branch of `requestHandler`, after the remediation phase:
Cloudflare re-check (retire + throw), extraction paths (`arrestCards`
placeholder, legacy `possibleCards` loop whose output is unused
downstream, page-wide `page.evaluate` scan), debug artifacts plus retire +
throw on an empty page, push records and pagination otherwise. -/
def handleListing (county resultsPerPage : Nat) (pageEnd : Option Nat)
    (pageNum : Nat) (pg : PageInput) : HandlerOutcome :=
  if isBlocked pg.title pg.content then
    { error := some "Blocked by Cloudflare - Retrying with new session"
      sessionRetired := true
      pushed := []
      artifactKeys := []
      enqueuedPage := none
      enqueuedUrl := none }
  else
    let extractedCount := 0
    let _records : List CandidateRecord :=
      if pg.arrestCardCount > 0 then []
      else legacyRecords pg.cards county
    let pageData := extractPage county pg.divs
    if pageData.length = 0 then
      let keys :=
        if pg.artifactWriteFails then []
        else
          [s!"debug_screenshot_{pageNum}.png", s!"debug_html_{pageNum}.html"]
      if extractedCount = 0 then
        { error := some "No records found - likely blocked or layout mismatch. Retrying."
          sessionRetired := true
          pushed := []
          artifactKeys := keys
          enqueuedPage := none
          enqueuedUrl := none }
      else
        { error := none
          sessionRetired := false
          pushed := []
          artifactKeys := keys
          enqueuedPage :=
            if shouldEnqueue pageEnd extractedCount pageNum then some (pageNum + 1)
            else none
          enqueuedUrl :=
            if shouldEnqueue pageEnd extractedCount pageNum then
              some (listingUrl county (pageNum + 1) resultsPerPage)
            else none }
    else
      let extractedCount := pageData.length
      { error := none
        sessionRetired := false
        pushed := pageData
        artifactKeys := []
        enqueuedPage :=
          if shouldEnqueue pageEnd extractedCount pageNum then some (pageNum + 1)
          else none
        enqueuedUrl :=
          if shouldEnqueue pageEnd extractedCount pageNum then
            some (listingUrl county (pageNum + 1) resultsPerPage)
          else none }

/-- The page-number trace of one pagination line: starting from `current`,
each successfully handled page enqueues the page number `handleListing`
decides on; `fuel` bounds the unrolling (the trace is a prefix of the run).
Retries of a blocked or empty page re-fetch the same request identity and
are not new page numbers. -/
def runPages (county resultsPerPage : Nat) (pageEnd : Option Nat)
    (pages : Nat → PageInput) : Nat → Nat → List Nat
  | 0, _ => []
  | fuel + 1, current =>
      current ::
        (match (handleListing county resultsPerPage pageEnd current
            (pages current)).enqueuedPage with
         | some nxt => runPages county resultsPerPage pageEnd pages fuel nxt
         | none => [])

/-! ## Input configuration (`runScraper` defaults) -/

/-- The raw actor input: a JS object whose fields may be absent/null
(`none`) or present; a present numeric `0` and boolean `false` are falsy. -/
structure ScraperIn where
  county : Option Nat
  resultsPerPage : Option Nat
  pageStart : Option Nat
  pageEnd : Option Nat
  maxConcurrency : Option Nat
  minDelayMs : Option Nat
  emitWebhook : Option Bool
  deriving DecidableEq, Repr

/-- JS `input.field || default` on a numeric field. -/
def jsOrNum (v : Option Nat) (d : Nat) : Nat :=
  match v with
  | some n => if n = 0 then d else n
  | none => d

/-- JS `input.pageEnd || null`. -/
def jsOrNull (v : Option Nat) : Option Nat :=
  match v with
  | some n => if n = 0 then none else some n
  | none => none

/-- JS `input.emitWebhook || false`. -/
def jsOrFalse (v : Option Bool) : Bool :=
  match v with
  | some b => b || false
  | none => false

/-- The resolved configuration. -/
structure Config where
  county : Nat
  resultsPerPage : Nat
  pageStart : Nat
  pageEnd : Option Nat
  maxConcurrency : Nat
  minDelayMs : Nat
  emitWebhook : Bool
  deriving DecidableEq, Repr

/-- The default block at the top of `runScraper`. -/
def resolveConfig (i : ScraperIn) : Config :=
  { county := jsOrNum i.county 8
    resultsPerPage := jsOrNum i.resultsPerPage 56
    pageStart := jsOrNum i.pageStart 1
    pageEnd := jsOrNull i.pageEnd
    maxConcurrency := jsOrNum i.maxConcurrency 3
    minDelayMs := jsOrNum i.minDelayMs 750
    emitWebhook := jsOrFalse i.emitWebhook }

/-- An input object with every field absent. -/
def emptyIn : ScraperIn :=
  { county := none, resultsPerPage := none, pageStart := none
    pageEnd := none, maxConcurrency := none, minDelayMs := none
    emitWebhook := none }

/-! ## Deduplicator lemmas -/

theorem dedupAux_sublist (seen : List String) (rs : List CandidateRecord) :
    (dedupAux seen rs).Sublist rs := by
  induction rs generalizing seen with
  | nil => simp [dedupAux]
  | cons r rs ih =>
      simp only [dedupAux]
      split
      · exact (ih seen).cons r
      · exact (ih (dedupKey r :: seen)).cons₂ r

theorem mem_dedupAux {seen : List String} {rs : List CandidateRecord}
    {r : CandidateRecord} (h : r ∈ dedupAux seen rs) :
    dedupKey r ∉ seen ∧ r ∈ rs := by
  induction rs generalizing seen with
  | nil => simp [dedupAux] at h
  | cons s rs ih =>
      simp only [dedupAux] at h
      split at h
      · obtain ⟨h1, h2⟩ := ih h
        exact ⟨h1, List.mem_cons_of_mem s h2⟩
      · rcases List.mem_cons.mp h with rfl | h'
        · exact ⟨by assumption, List.mem_cons_self r rs⟩
        · obtain ⟨h1, h2⟩ := ih h'
          exact ⟨fun hc => h1 (List.mem_cons_of_mem _ hc),
            List.mem_cons_of_mem s h2⟩

theorem keys_nodup_dedupAux (seen : List String) (rs : List CandidateRecord) :
    ((dedupAux seen rs).map dedupKey).Nodup := by
  induction rs generalizing seen with
  | nil => simp [dedupAux]
  | cons r rs ih =>
      simp only [dedupAux]
      split
      · exact ih seen
      · refine List.nodup_cons.mpr ⟨?_, ih (dedupKey r :: seen)⟩
        intro hc
        obtain ⟨s, hs, hks⟩ := List.mem_map.mp hc
        exact (mem_dedupAux hs).1 (hks ▸ List.mem_cons_self _ _)

theorem key_covered_dedupAux {seen : List String} {rs : List CandidateRecord}
    {r : CandidateRecord} (h : r ∈ rs) (hk : dedupKey r ∉ seen) :
    dedupKey r ∈ (dedupAux seen rs).map dedupKey := by
  induction rs generalizing seen with
  | nil => simp at h
  | cons s rs ih =>
      rcases List.mem_cons.mp h with rfl | h'
      · simp only [dedupAux]
        split
        · exact absurd (by assumption) hk
        · exact List.mem_cons_self _ _
      · simp only [dedupAux]
        split
        · exact ih h' hk
        · by_cases he : dedupKey r = dedupKey s
          · simp [he]
          · refine List.mem_cons_of_mem _ (ih h' ?_)
            intro hc
            rcases List.mem_cons.mp hc with h1 | h1
            · exact he h1
            · exact hk h1

theorem first_of_key_dedupAux {seen : List String} {rs : List CandidateRecord}
    {r : CandidateRecord} (h : r ∈ dedupAux seen rs) :
    rs.find? (fun s => dedupKey s == dedupKey r) = some r := by
  induction rs generalizing seen with
  | nil => simp [dedupAux] at h
  | cons s rs ih =>
      simp only [dedupAux] at h
      split at h
      · have hne : dedupKey s ≠ dedupKey r := by
          intro he
          exact (mem_dedupAux h).1 (he ▸ (by assumption))
        rw [List.find?_cons_of_neg _ (by simpa using hne)]
        exact ih h
      · rcases List.mem_cons.mp h with rfl | h'
        · exact List.find?_cons_of_pos _ (by simp)
        · have hne : dedupKey s ≠ dedupKey r := by
            intro he
            exact (mem_dedupAux h').1 (he ▸ List.mem_cons_self _ _)
          rw [List.find?_cons_of_neg _ (by simpa using hne)]
          exact ih h'

theorem dedupAux_eq_self {seen : List String} {rs : List CandidateRecord}
    (hseen : ∀ r ∈ rs, dedupKey r ∉ seen) (hnd : (rs.map dedupKey).Nodup) :
    dedupAux seen rs = rs := by
  induction rs generalizing seen with
  | nil => simp [dedupAux]
  | cons r rs ih =>
      simp only [dedupAux]
      rw [if_neg (hseen r (List.mem_cons_self r rs))]
      congr 1
      refine ih ?_ (List.nodup_cons.mp (by simpa using hnd)).2
      intro s hs hc
      rcases List.mem_cons.mp hc with h1 | h1
      · exact (List.nodup_cons.mp (by simpa using hnd)).1
          (h1 ▸ List.mem_map_of_mem dedupKey hs)
      · exact hseen s (List.mem_cons_of_mem r hs) h1

theorem mem_extractPage {county : Nat} {divs : List Div}
    {r : CandidateRecord} (h : r ∈ extractPage county divs) :
    ∃ d ∈ divs, extractDiv county d = some r := by
  have hmem : r ∈ divs.filterMap (extractDiv county) :=
    (dedupAux_sublist [] _).mem h
  obtain ⟨d, hd, he⟩ := List.mem_filterMap.mp hmem
  exact ⟨d, hd, he⟩

/-- C3: the deduplicator keys records by `detail_url` when present and
non-empty, else by `person_name`; it keeps a sublist of the input (so
relative order is preserved), retains at most one record per key, covers
every key occurring in the input, and each retained record is exactly the
first record of the input carrying its key — so of two records with equal
non-empty `detail_url`, only the first survives, whatever their other
fields. -/
theorem dedup_first_seen_per_key (rs : List CandidateRecord) :
    (∀ r : CandidateRecord,
        dedupKey r = match r.detail_url with
          | some u => if u = "" then r.person_name else u
          | none => r.person_name) ∧
    (dedup rs).Sublist rs ∧
    ((dedup rs).map dedupKey).Nodup ∧
    (∀ r ∈ rs, dedupKey r ∈ (dedup rs).map dedupKey) ∧
    (∀ r ∈ dedup rs, rs.find? (fun s => dedupKey s == dedupKey r) = some r) := by
  refine ⟨fun r => rfl, dedupAux_sublist [] rs, keys_nodup_dedupAux [] rs,
    fun r hr => key_covered_dedupAux hr (by simp), fun r hr => first_of_key_dedupAux hr⟩

/-- Two records sharing a non-empty `detail_url` but differing elsewhere. -/
def recA : CandidateRecord :=
  { county_id := 8, person_name := "ALICE", booking_datetime_text := ""
    charges_preview := [], image_url := "http://x/a.jpg"
    detail_url := some "http://x/d9", bond_text := none }

def recB : CandidateRecord :=
  { county_id := 8, person_name := "BOB", booking_datetime_text := ""
    charges_preview := [], image_url := "http://x/b.jpg"
    detail_url := some "http://x/d9", bond_text := none }

/-- C3 witness: on `[recA, recB]`, which share a non-empty `detail_url`,
the retained record is the first of its key. -/
theorem dedup_first_seen_per_key_witness :
    [recA, recB].find? (fun s => dedupKey s == dedupKey recA) = some recA :=
  (dedup_first_seen_per_key [recA, recB]).2.2.2.2 recA (by decide)

/-- C7: the deduplicator is idempotent — its output is a fixed point. -/
theorem dedup_idempotent (rs : List CandidateRecord) :
    dedup (dedup rs) = dedup rs := by
  unfold dedup
  exact dedupAux_eq_self (by simp) (keys_nodup_dedupAux [] rs)

/-! ## Handler and pagination lemmas -/

theorem shouldEnqueue_iff (pe : Option Nat) (cnt cur : Nat) :
    shouldEnqueue pe cnt cur = true ↔
      (0 < cnt ∧ ∀ e, pe = some e → cur < e) := by
  unfold shouldEnqueue
  cases pe <;> simp

theorem handleListing_enqueue_cases (county rpp : Nat) (pe : Option Nat)
    (pn : Nat) (pg : PageInput) :
    (handleListing county rpp pe pn pg).enqueuedPage = none ∨
    ((handleListing county rpp pe pn pg).enqueuedPage = some (pn + 1) ∧
      shouldEnqueue pe (extractPage county pg.divs).length pn = true) := by
  by_cases hb : isBlocked pg.title pg.content = true
  · exact Or.inl (by simp [handleListing, hb])
  · by_cases hlen : extractPage county pg.divs = []
    · exact Or.inl (by simp [handleListing, hb, hlen])
    · by_cases hq : shouldEnqueue pe (extractPage county pg.divs).length pn = true
      · exact Or.inr ⟨by simp [handleListing, hb, hlen, hq], hq⟩
      · exact Or.inl (by simp [handleListing, hb, hlen, hq])

theorem runPages_range (county rpp : Nat) (pe : Option Nat)
    (pages : Nat → PageInput) (fuel start : Nat) :
    ∃ n, runPages county rpp pe pages fuel start = List.range' start n := by
  induction fuel generalizing start with
  | zero => exact ⟨0, rfl⟩
  | succ fuel ih =>
      rcases handleListing_enqueue_cases county rpp pe start (pages start) with h | ⟨h, _⟩
      · refine ⟨1, ?_⟩
        simp only [runPages, h]
        rfl
      · obtain ⟨n, hn⟩ := ih (start + 1)
        refine ⟨n + 1, ?_⟩
        simp only [runPages, h, hn, List.range'_succ]

theorem runPages_le (county rpp : Nat) (pages : Nat → PageInput)
    (fuel start e : Nat) (hse : start ≤ e) :
    ∀ p ∈ runPages county rpp (some e) pages fuel start, p ≤ e := by
  induction fuel generalizing start with
  | zero => simp [runPages]
  | succ fuel ih =>
      intro p hp
      simp only [runPages] at hp
      rcases List.mem_cons.mp hp with rfl | hp'
      · exact hse
      · rcases handleListing_enqueue_cases county rpp (some e) start (pages start)
          with h | ⟨h, hq⟩
        · rw [h] at hp'
          simp at hp'
        · rw [h] at hp'
          have hlt : start < e :=
            ((shouldEnqueue_iff (some e) _ start).mp hq).2 e rfl
          exact ih (start + 1) hlt p hp'

/-- A page with no block markers and nothing to extract. -/
def noRecordsPage : PageInput :=
  { title := "", content := "", divs := [], arrestCardCount := 0
    cards := [], artifactWriteFails := false }

/-- C1 (amended): the pagination controller enqueues `page+1` iff the page
yielded at least one post-dedup record and (`pageEnd` unset or
`currentPage < pageEnd`); the fetched page numbers of one pagination line
form a contiguous run `pageStart, pageStart+1, ...`; and when `pageEnd` is
set and `pageStart ≤ pageEnd`, no fetched page exceeds `pageEnd` (the
initial fetch at `pageStart` is issued unconditionally, so a start beyond
`pageEnd` is the one exception). -/
theorem pagination_monotone (county rpp : Nat) (pe : Option Nat)
    (pages : Nat → PageInput) (fuel start : Nat) :
    (∀ cnt cur, shouldEnqueue pe cnt cur = true ↔
        (0 < cnt ∧ ∀ e, pe = some e → cur < e)) ∧
    (∃ n, runPages county rpp pe pages fuel start = List.range' start n) ∧
    (∀ e, pe = some e → start ≤ e →
      ∀ p ∈ runPages county rpp pe pages fuel start, p ≤ e) := by
  refine ⟨shouldEnqueue_iff pe, runPages_range county rpp pe pages fuel start,
    fun e hpe hse => ?_⟩
  subst hpe
  exact runPages_le county rpp pages fuel start e hse

/-- C1, counterexample to the claim as stated: with `pageEnd = 2` set and
`pageStart = 5`, the run still fetches page 5, which exceeds `pageEnd`. -/
theorem pagination_exceeds_pageEnd_cex :
    runPages 8 56 (some 2) (fun _ => noRecordsPage) 3 5 = [5] ∧
      ¬ (5 : Nat) ≤ 2 := by
  decide

/-! ## Extraction claim theorems -/

theorem extractDiv_eq_some {county : Nat} {d : Div} {r : CandidateRecord}
    (h : extractDiv county d = some r) :
    ∃ img, d.imgs.head? = some img ∧
      hasFourDigitRun d.innerText = true ∧
      d.innerText.length ≤ 500 ∧
      r.image_url = img.src ∧
      r.detail_url = (d.links.head?).map Link.href := by
  cases himg : d.imgs.head? with
  | none => simp [extractDiv, himg] at h
  | some img =>
      simp only [extractDiv, himg] at h
      by_cases h4 : hasFourDigitRun d.innerText = true
      · by_cases hlen : d.innerText.length > 500
        · rw [if_neg (by simp [h4]), if_pos hlen] at h
          cases h
        · rw [if_neg (by simp [h4]), if_neg hlen] at h
          refine ⟨img, rfl, h4, Nat.le_of_not_lt hlen, ?_, ?_⟩
          · rw [← Option.some_inj.mp h]
          · rw [← Option.some_inj.mp h]
      · rw [if_pos (by simp [Bool.not_eq_true] at h4; simp [h4])] at h
        cases h

/-- C5 (amended): every record produced by the page-wide scan comes from a
scanned container whose visible text has length at most 500 and contains a
run of 4 consecutive digits and which contains an image element; the
record's image URL is that image element's `src` — which the code does not
require to be non-empty. -/
theorem extract_containment (county : Nat) (divs : List Div)
    (r : CandidateRecord) (h : r ∈ extractPage county divs) :
    ∃ d ∈ divs, d.innerText.length ≤ 500 ∧
      hasFourDigitRun d.innerText = true ∧
      ∃ img, d.imgs.head? = some img ∧ r.image_url = img.src := by
  obtain ⟨d, hd, he⟩ := mem_extractPage h
  obtain ⟨img, h1, h2, h3, h4, _⟩ := extractDiv_eq_some he
  exact ⟨d, hd, h3, h2, img, h1, h4⟩

/-- A container holding an image element whose `src` is empty and the text
"2024": it passes every extractor filter. -/
def cexDiv : Div :=
  { innerText := "2024", imgs := [⟨""⟩], links := []
    titleNodes := [], listItems := [] }

/-- The record the page-wide scan produces for `cexDiv`. -/
def cexRec : CandidateRecord :=
  { county_id := 8, person_name := "Unknown", booking_datetime_text := ""
    charges_preview := [], image_url := "", detail_url := none
    bond_text := none }

/-- C5, counterexample to the claim as stated: the scan produces a record
whose image URL is empty, because the extractor only checks that an image
element exists, not that its `src` is non-empty. -/
theorem extract_image_empty_cex :
    cexRec ∈ extractPage 8 [cexDiv] ∧ cexRec.image_url = "" := by
  decide

/-- A representative populated container. -/
def sampleDiv : Div :=
  { innerText := "DOE JOHN Arrested: 1/2/2024 Bond: $500"
    imgs := [⟨"http://x/img.jpg"⟩], links := [⟨"http://x/d1"⟩]
    titleNodes := ["John Doe"], listItems := ["THEFT"] }

/-- The record the page-wide scan produces for `sampleDiv`. -/
def sampleRec : CandidateRecord :=
  { county_id := 8, person_name := "John Doe"
    booking_datetime_text := "1/2/2024 Bond: $500"
    charges_preview := ["THEFT"], image_url := "http://x/img.jpg"
    detail_url := some "http://x/d1", bond_text := some "$500" }

/-- C5 witness: the amended containment theorem applied to the concrete
page `[sampleDiv]`. -/
theorem extract_containment_witness :
    ∃ d ∈ [sampleDiv], d.innerText.length ≤ 500 ∧
      hasFourDigitRun d.innerText = true ∧
      ∃ img, d.imgs.head? = some img ∧ sampleRec.image_url = img.src :=
  extract_containment 8 [sampleDiv] sampleRec (by decide)

/-- C6: for every accepted container, the extracted detail URL is the
`href` of the first nested link element, and is null (absent) when the
container has no nested link. -/
theorem detail_url_first_link (county : Nat) (d : Div) (r : CandidateRecord)
    (h : extractDiv county d = some r) :
    r.detail_url = (d.links.head?).map Link.href ∧
      (d.links = [] → r.detail_url = none) := by
  obtain ⟨_, _, _, _, _, h5⟩ := extractDiv_eq_some h
  refine ⟨h5, fun hnil => ?_⟩
  rw [h5, hnil]
  rfl

/-- C6 witness: the detail URL of the record extracted from `sampleDiv` is
the `href` of its first link. -/
theorem detail_url_first_link_witness :
    sampleRec.detail_url = (sampleDiv.links.head?).map Link.href :=
  (detail_url_first_link 8 sampleDiv sampleRec (by decide)).1

/-! ## Handler claim theorems -/

/-- A page with no block markers whose only container is `sampleDiv`. -/
def recordsPage : PageInput :=
  { title := "", content := "", divs := [sampleDiv], arrestCardCount := 0
    cards := [], artifactWriteFails := false }

/-- C1 witness: with `pageEnd = 5` and every page yielding one record, the
run fetches pages 1..5 and the bound of the pagination theorem holds at
page 5. -/
theorem pagination_monotone_witness :
    runPages 8 56 (some 5) (fun _ => recordsPage) 6 1 = [1, 2, 3, 4, 5] ∧
      (5 : Nat) ≤ 5 :=
  ⟨by decide,
    (pagination_monotone 8 56 (some 5) (fun _ => recordsPage) 6 1).2.2 5 rfl
      (by decide) 5 (by decide)⟩

/-- C2: a non-blocked listing page whose extraction yields zero post-dedup
candidates does not enqueue `page+1`; the handler retires the session and
throws the retryable no-records error, so the crawler retries the same
request with a rotated identity before giving up. -/
theorem empty_page_terminates (county rpp : Nat) (pe : Option Nat) (pn : Nat)
    (pg : PageInput) (hb : isBlocked pg.title pg.content = false)
    (he : extractPage county pg.divs = []) :
    (handleListing county rpp pe pn pg).enqueuedPage = none ∧
    (handleListing county rpp pe pn pg).sessionRetired = true ∧
    (handleListing county rpp pe pn pg).error =
      some "No records found - likely blocked or layout mismatch. Retrying." := by
  refine ⟨?_, ?_, ?_⟩ <;> simp [handleListing, hb, he]

/-- C2 witness: the empty-page theorem at a concrete empty page. -/
theorem empty_page_terminates_witness :
    (handleListing 8 56 none 1 noRecordsPage).enqueuedPage = none ∧
    (handleListing 8 56 none 1 noRecordsPage).sessionRetired = true ∧
    (handleListing 8 56 none 1 noRecordsPage).error =
      some "No records found - likely blocked or layout mismatch. Retrying." :=
  empty_page_terminates 8 56 none 1 noRecordsPage (by decide) (by decide)

/-- C4: a listing page still blocked after remediation — title containing
"Just a moment" or "Attention Required", or content containing
"challenge-platform" — makes the handler retire the session and throw the
blocked error, emitting no records and enqueuing no next page, so the same
request is retried with a fresh identity. -/
theorem blocked_page_retires (county rpp : Nat) (pe : Option Nat) (pn : Nat)
    (pg : PageInput)
    (h : strHas pg.title "Just a moment" = true ∨
         strHas pg.title "Attention Required" = true ∨
         strHas pg.content "challenge-platform" = true) :
    (handleListing county rpp pe pn pg).error =
      some "Blocked by Cloudflare - Retrying with new session" ∧
    (handleListing county rpp pe pn pg).sessionRetired = true ∧
    (handleListing county rpp pe pn pg).pushed = [] ∧
    (handleListing county rpp pe pn pg).enqueuedPage = none := by
  have hb : isBlocked pg.title pg.content = true := by
    unfold isBlocked
    rcases h with h | h | h <;> simp [h]
  refine ⟨?_, ?_, ?_, ?_⟩ <;> simp [handleListing, hb]

/-- A challenge page: blocked title over extractable content. -/
def blockedPage : PageInput :=
  { title := "Just a moment...", content := "<html></html>"
    divs := [sampleDiv], arrestCardCount := 0, cards := []
    artifactWriteFails := false }

/-- C4 witness: the blocked-page theorem at a concrete challenge page —
even though its containers are extractable, nothing is emitted. -/
theorem blocked_page_retires_witness :
    (handleListing 8 56 none 1 blockedPage).error =
      some "Blocked by Cloudflare - Retrying with new session" ∧
    (handleListing 8 56 none 1 blockedPage).sessionRetired = true ∧
    (handleListing 8 56 none 1 blockedPage).pushed = [] ∧
    (handleListing 8 56 none 1 blockedPage).enqueuedPage = none :=
  blocked_page_retires 8 56 none 1 blockedPage (Or.inl (by decide))

/-- C8: debug artifacts (screenshot and HTML, keyed by the page number) are
written exactly when a non-blocked page extracts zero records, and a
failing artifact write changes nothing else about the page's outcome. -/
theorem debug_artifact_policy (county rpp : Nat) (pe : Option Nat) (pn : Nat)
    (pg : PageInput) :
    (pg.artifactWriteFails = false →
      ((handleListing county rpp pe pn pg).artifactKeys ≠ [] ↔
        (isBlocked pg.title pg.content = false ∧
          extractPage county pg.divs = []))) ∧
    (pg.artifactWriteFails = false →
      isBlocked pg.title pg.content = false →
      extractPage county pg.divs = [] →
      (handleListing county rpp pe pn pg).artifactKeys =
        [s!"debug_screenshot_{pn}.png", s!"debug_html_{pn}.html"]) ∧
    ((handleListing county rpp pe pn
        { pg with artifactWriteFails := false }).error =
      (handleListing county rpp pe pn
        { pg with artifactWriteFails := true }).error ∧
     (handleListing county rpp pe pn
        { pg with artifactWriteFails := false }).sessionRetired =
      (handleListing county rpp pe pn
        { pg with artifactWriteFails := true }).sessionRetired ∧
     (handleListing county rpp pe pn
        { pg with artifactWriteFails := false }).pushed =
      (handleListing county rpp pe pn
        { pg with artifactWriteFails := true }).pushed ∧
     (handleListing county rpp pe pn
        { pg with artifactWriteFails := false }).enqueuedPage =
      (handleListing county rpp pe pn
        { pg with artifactWriteFails := true }).enqueuedPage) := by
  by_cases hb : isBlocked pg.title pg.content = true
  · refine ⟨fun hw => ?_, fun hw hb' => ?_, ?_⟩
    · simp [handleListing, hb]
    · rw [hb'] at hb
      cases hb
    · refine ⟨?_, ?_, ?_, ?_⟩ <;> simp [handleListing, hb]
  · by_cases he : extractPage county pg.divs = []
    · refine ⟨fun hw => ?_, fun hw hb' he' => ?_, ?_⟩
      · simp [handleListing, hb, he, hw]
      · simp [handleListing, hb, he, hw]
      · refine ⟨?_, ?_, ?_, ?_⟩ <;> simp [handleListing, hb, he]
    · refine ⟨fun hw => ?_, fun hw hb' he' => absurd he' he, ?_⟩
      · simp [handleListing, hb, he]
      · refine ⟨?_, ?_, ?_, ?_⟩ <;> simp [handleListing, hb, he]

/-- C8 witness: at a concrete empty page, artifacts are written. -/
theorem debug_artifact_policy_witness :
    (handleListing 8 56 none 1 noRecordsPage).artifactKeys ≠ [] :=
  ((debug_artifact_policy 8 56 none 1 noRecordsPage).1 rfl).mpr
    ⟨by decide, by decide⟩

/-- C9: `parseCard` returns null for every input, so the legacy
`possibleCards` loop builds an empty records list, and every record the
handler pushes comes from the page-wide heuristic scan. -/
theorem legacy_path_dead (c : Card) (county : Nat) (cards : List Card)
    (rpp : Nat) (pe : Option Nat) (pn : Nat) (pg : PageInput) :
    parseCard c county = none ∧
    legacyRecords cards county = [] ∧
    (∀ r ∈ (handleListing county rpp pe pn pg).pushed,
      r ∈ extractPage county pg.divs) := by
  refine ⟨rfl, ?_, ?_⟩
  · simp [legacyRecords, parseCard]
  · intro r hr
    by_cases hb : isBlocked pg.title pg.content = true
    · simp [handleListing, hb] at hr
    · by_cases he : extractPage county pg.divs = []
      · simp [handleListing, hb, he] at hr
      · simpa [handleListing, hb, he] using hr

/-- C9 witness: the one record pushed for `recordsPage` comes from the
page-wide scan. -/
theorem legacy_path_dead_witness :
    sampleRec ∈ extractPage 8 recordsPage.divs :=
  (legacy_path_dead ⟨"", "", "", none⟩ 8 [] 56 none 1 recordsPage).2.2
    sampleRec (by decide)

/-- C10: every falsy numeric or boolean configuration field takes its
default: the all-absent input resolves to the documented defaults, and an
explicit 0 (or `false` for the webhook flag) is indistinguishable from
omitting the field. -/
theorem config_defaults :
    resolveConfig emptyIn =
      { county := 8, resultsPerPage := 56, pageStart := 1, pageEnd := none
        maxConcurrency := 3, minDelayMs := 750, emitWebhook := false } ∧
    (∀ i : ScraperIn,
      resolveConfig { i with county := some 0 } =
        resolveConfig { i with county := none } ∧
      resolveConfig { i with resultsPerPage := some 0 } =
        resolveConfig { i with resultsPerPage := none } ∧
      resolveConfig { i with pageStart := some 0 } =
        resolveConfig { i with pageStart := none } ∧
      resolveConfig { i with pageEnd := some 0 } =
        resolveConfig { i with pageEnd := none } ∧
      resolveConfig { i with maxConcurrency := some 0 } =
        resolveConfig { i with maxConcurrency := none } ∧
      resolveConfig { i with minDelayMs := some 0 } =
        resolveConfig { i with minDelayMs := none } ∧
      resolveConfig { i with emitWebhook := some false } =
        resolveConfig { i with emitWebhook := none }) := by
  refine ⟨rfl, fun i => ?_⟩
  refine ⟨?_, ?_, ?_, ?_, ?_, ?_, ?_⟩ <;>
    simp [resolveConfig, jsOrNum, jsOrNull, jsOrFalse]

end ArrestScraper
